import Mathlib

/-!
Verification of the incremental transcription stream client
(`whisper_transcriber/transcriber.py`, class `TranscriptionService`).

The reconciliation engine (`_on_message`), the stream connection
(`connect_websocket` / `disconnect_websocket`) and the process supervisor
(`start_server`) are embedded shallowly:

* Python strings are `List Char`; `str.strip()` is `pyStrip`,
  `str.startswith` is `List.isPrefixOf`, slicing `s[n:]` is `List.drop n`.
* `time.time()` timestamps are integer milliseconds, so the float
  constants of the source are exact: 3.0 s = 3000 ms, 0.5 s = 500 ms,
  2 s = 2000 ms, 50 ms, 1.5 s = 1500 ms.
* The lazily created attributes `_sent_texts`, `_last_buffer_text`,
  `_last_buffer_content`, `_last_meaningful_transcription_time` form the
  record `ReconState`; lazy `hasattr` initialisation is modelled by the
  state always being present, starting from `initReconState`.
* `_sent_texts` (a Python `set` used only for membership and insertion)
  is an insertion-ordered duplicate-free list.
* Emitted consumer events `handle_transcription(text, is_final)` are
  collected in an output list `(Str × Bool)`.
-/

/-- Python strings, as lists of characters. -/
abbrev Str := List Char

/-- Python `str.strip()`: remove leading and trailing whitespace. -/
def pyStrip (s : Str) : Str :=
  ((s.dropWhile Char.isWhitespace).reverse.dropWhile Char.isWhitespace).reverse

/-- One entry of the `lines` array of a server message: a JSON object
(whose `"text"` field defaults to `""` via `line.get("text", "")`),
a bare JSON string, or any other JSON value (ignored by the code). -/
inductive LineEntry where
  | dictE (text : Str)
  | strE (s : Str)
  | otherE
deriving DecidableEq, Repr

/-- A decoded WebSocket message, with the fields `_on_message` reads;
absent fields are the defaults of `data.get(..., "")` / `data.get("lines", [])`. -/
structure WsMsg where
  msgType : Str := []
  status : Str := []
  buffer_transcription : Str := []
  lines : List LineEntry := []
deriving DecidableEq, Repr

/-- The reconciliation state of `TranscriptionService._on_message`
(attributes `_sent_texts`, `_last_buffer_text`, `_last_buffer_content`,
`_last_meaningful_transcription_time`). -/
structure ReconState where
  sentTexts : List Str
  lastBufferText : Str
  lastBufferContent : Str
  lastMeaningfulTime : Option Int
deriving DecidableEq, Repr

/-- The lazily-initialised defaults: empty set, empty strings, no timestamp. -/
def initReconState : ReconState :=
  { sentTexts := [], lastBufferText := [], lastBufferContent := [],
    lastMeaningfulTime := none }

/-- `self._silence_timeout_seconds = 3.0`, in milliseconds. -/
def silenceTimeoutMs : Int := 3000

/-- Whether the silence timeout has elapsed: a last meaningful time is set
and `current_time - self._last_meaningful_transcription_time` exceeds the
timeout (lines 329-333). -/
def silenceExpired (now : Int) (st : ReconState) : Bool :=
  match st.lastMeaningfulTime with
  | none => false
  | some t => decide (now - t > silenceTimeoutMs)

/-- The silence check (transcriber.py lines 329-339): if the timeout has
elapsed, clear the buffer tracking. -/
def silenceCheck (now : Int) (st : ReconState) : ReconState :=
  if silenceExpired now st then
    { st with lastBufferText := [], lastBufferContent := [],
              lastMeaningfulTime := none }
  else st

/-- The three-way partial-buffer dispatch (lines 349-362), reached when the
stripped buffer text is non-empty and differs from `_last_buffer_content`:
strict extension emits the raw suffix (if non-blank), a changed buffer is
emitted whole, and an unchanged `_last_buffer_text` emits nothing. -/
def partialEmit (now : Int) (st : ReconState) (bufferText : Str) :
    ReconState × List (Str × Bool) :=
  if st.lastBufferText.isPrefixOf bufferText
      ∧ st.lastBufferText.length < bufferText.length then
    let newText := bufferText.drop st.lastBufferText.length
    if pyStrip newText = [] then (st, [])
    else ({ st with lastMeaningfulTime := some now }, [(newText, false)])
  else if bufferText = st.lastBufferText then (st, [])
  else ({ st with lastMeaningfulTime := some now }, [(bufferText, false)])

/-- One entry of the `lines` loop (lines 370-386): extract the text
(`text` field of a dict, or the bare string), strip it, skip it when blank
or already in `_sent_texts`, otherwise emit it as final and record it. -/
def processLine (now : Int) (st : ReconState) (e : LineEntry) :
    ReconState × List (Str × Bool) :=
  match e with
  | .otherE => (st, [])
  | .dictE t =>
      let lineText := pyStrip t
      if lineText = [] then (st, [])
      else if lineText ∈ st.sentTexts then (st, [])
      else ({ st with sentTexts := st.sentTexts ++ [lineText],
                      lastMeaningfulTime := some now }, [(lineText, true)])
  | .strE s =>
      let lineText := pyStrip s
      if lineText = [] then (st, [])
      else if lineText ∈ st.sentTexts then (st, [])
      else ({ st with sentTexts := st.sentTexts ++ [lineText],
                      lastMeaningfulTime := some now }, [(lineText, true)])

/-- The `for line in lines` loop. -/
def processLines (now : Int) (st : ReconState) :
    List LineEntry → ReconState × List (Str × Bool)
  | [] => (st, [])
  | e :: rest =>
      let (st', evs) := processLine now st e
      let (st'', evs') := processLines now st' rest
      (st'', evs ++ evs')

/-- `TranscriptionService._on_message` (lines 296-395) on one decoded
message: the `ready_to_stop` early return, the silence check, the
partial-buffer section (whose exact-repeat branch returns from the whole
handler), the assignment of both `_last_buffer_text` and
`_last_buffer_content` to the stripped buffer, and the `lines` loop.
Returns the new state and the list of `handle_transcription` events. -/
def on_message (st : ReconState) (now : Int) (m : WsMsg) :
    ReconState × List (Str × Bool) :=
  if m.msgType = "ready_to_stop".data then (st, [])
  else
    let bufferText := pyStrip m.buffer_transcription
    let st1 := silenceCheck now st
    if bufferText = [] then processLines now st1 m.lines
    else if bufferText = st1.lastBufferContent then (st1, [])
    else
      let (st2, evs) := partialEmit now st1 bufferText
      let st3 := { st2 with lastBufferText := bufferText,
                            lastBufferContent := bufferText }
      let (st4, evs') := processLines now st3 m.lines
      (st4, evs ++ evs')

/-- A sequence of messages, each with its arrival timestamp, processed in
order; events are concatenated. -/
def runMessages (st : ReconState) :
    List (Int × WsMsg) → ReconState × List (Str × Bool)
  | [] => (st, [])
  | (now, m) :: rest =>
      let (st', evs) := on_message st now m
      let (st'', evs') := runMessages st' rest
      (st'', evs ++ evs')

/-- A message carrying only a `buffer_transcription` value. -/
def bufMsg (s : String) : WsMsg := { buffer_transcription := s.data }

/-- The (zero or one) stripped non-empty text a `lines` entry contributes. -/
def lineTextOf : LineEntry → List Str
  | .dictE t => if pyStrip t = [] then [] else [pyStrip t]
  | .strE s => if pyStrip s = [] then [] else [pyStrip s]
  | .otherE => []

/-- The stripped non-empty texts of a `lines` array, in order. -/
def lineTexts : List LineEntry → List Str
  | [] => []
  | e :: rest => lineTextOf e ++ lineTexts rest

/-- The stripped non-empty line texts of a whole message sequence, in order. -/
def msgsLineTexts : List (Int × WsMsg) → List Str
  | [] => []
  | (_, m) :: rest => lineTexts m.lines ++ msgsLineTexts rest

/-- First-occurrence deduplication against an already-sent set: the
sub-sequence of `l` keeping the first occurrence of each text not already
in `sent`.  This is the delivery order `_sent_texts` enforces. -/
def dedupNew (sent : List Str) : List Str → List Str
  | [] => []
  | t :: ts => if t ∈ sent then dedupNew sent ts else t :: dedupNew (sent ++ [t]) ts

/-!
## Stream connection (`connect_websocket`, transcriber.py lines 140-203)

The real-time wait loop (`while not self.is_connected and time.time() -
start_time < timeout: time.sleep(0.05)`) is abstracted by an oracle
`opened : Nat → Bool` saying whether attempt `i`'s wait observes
`is_connected`; the timing constants of the source are carried verbatim
on the trace of transport operations, in milliseconds.
-/

/-- `max_retries = 3` (line 165). -/
def maxRetries : Nat := 3

/-- `retry_delay = 0.5` seconds (line 166), in milliseconds. -/
def retryDelayMs : Int := 500

/-- `timeout = 2` seconds per attempt (line 191), in milliseconds. -/
def openTimeoutMs : Int := 2000

/-- `time.sleep(0.05)` poll granularity (line 194), in milliseconds. -/
def pollIntervalMs : Int := 50

/-- One transport-level operation performed by `connect_websocket`. -/
inductive TransportOp where
  | createApp
  | startThread
  | waitOpen (timeoutMs pollMs : Int)
  | backoff (delayMs : Int)
deriving DecidableEq, Repr

/-- The `for attempt in range(max_retries)` loop (lines 168-199): attempt 0
reuses the WebSocketApp created before the loop; attempts 1 and 2 sleep the
backoff and re-create it; each attempt waits for the open flag and the
whole call returns `true` as soon as it is observed. -/
def connectAttempts (opened : Nat → Bool) : Nat → Nat → Bool × List TransportOp
  | _, 0 => (false, [])
  | i, r + 1 =>
      let pre : List TransportOp :=
        if i = 0 then [] else [.backoff retryDelayMs, .createApp, .startThread]
      let t := pre ++ [.waitOpen openTimeoutMs pollIntervalMs]
      if opened i then (true, t)
      else
        let (b, t') := connectAttempts opened (i + 1) r
        (b, t ++ t')

/-- `TranscriptionService.connect_websocket` (lines 140-203): returns
`False` with no transport activity when no transcription callback is set;
otherwise creates the WebSocketApp, starts its thread, and runs the
bounded-retry wait loop. -/
def connect_websocket (hasCallback : Bool) (opened : Nat → Bool) :
    Bool × List TransportOp :=
  if hasCallback then
    let (b, t) := connectAttempts opened 0 maxRetries
    (b, [.createApp, .startThread] ++ t)
  else (false, [])

/-!
## Service state: `disconnect_websocket` (lines 266-289)
-/

/-- The connection-facing fields of `TranscriptionService`: the WebSocket
handle (opaque), the `is_connected` flag, and the reconciliation state. -/
structure ServiceState where
  websocket_client : Option Nat
  is_connected : Bool
  recon : ReconState
deriving DecidableEq, Repr

/-- `TranscriptionService.disconnect_websocket`: when a client handle
exists, the `finally` block clears it and forces `is_connected = False`
(the stop-signal send, grace sleep and close are external effects with no
bearing on this state); in both cases the reconciliation tracking is
reset to its initial value. -/
def disconnect_websocket (st : ServiceState) : ServiceState :=
  let st1 :=
    match st.websocket_client with
    | some _ => { st with websocket_client := none, is_connected := false }
    | none => st
  { st1 with recon := initReconState }

/-!
## Process supervisor: `start_server` (lines 53-138)

Process liveness (`poll() is None`) and the executable search are supplied
by an environment record; `subprocess.Popen` may raise, which the source's
`except Exception` converts to a `False` result with the handle cleared.
-/

/-- `time.sleep(1.5)` settle interval (line 119), in milliseconds. -/
def settleMs : Int := 1500

/-- The outcomes of the external operations `start_server` performs. -/
structure StartEnv where
  /-- `self.server_process.poll() is None` at the entry check (line 61). -/
  entryPollRunning : Bool
  /-- whether `sys` reports a virtual environment (lines 70-72). -/
  inVenv : Bool
  /-- the venv-local `whisperlivekit-server`, when it exists (lines 74-78). -/
  venvExe : Option String
  /-- `shutil.which("whisperlivekit-server")` (line 82). -/
  pathExe : Option String
  /-- `subprocess.Popen` result: a pid, or a raised exception (line 114). -/
  launch : Except String Nat
  /-- `self.server_process.poll() is None` after the settle wait (line 122). -/
  settlePollRunning : Bool
  /-- `self.server_process.communicate()` output on early exit (line 127). -/
  capturedStdout : String
  capturedStderr : String
deriving Repr

/-- The process-supervisor state: `self.server_process`. -/
structure SupState where
  server_process : Option Nat
deriving DecidableEq, Repr

/-- The executable search (lines 66-87): the venv bin directory is
consulted only inside a virtual environment, then the system path. -/
def findExecutable (env : StartEnv) : Option String :=
  if env.inVenv then
    match env.venvExe with
    | some v => some v
    | none => env.pathExe
  else env.pathExe

/-- `TranscriptionService.start_server`: result, new state, and the
stdout/stderr diagnostics captured when the process dies during settle.
The `except Exception` handler (lines 135-138) makes every outcome a
boolean; only the launch path can raise, and it yields `(false, none)`. -/
def start_server (env : StartEnv) (st : SupState) :
    Bool × SupState × Option (String × String) :=
  let fresh : Bool × SupState × Option (String × String) :=
    match findExecutable env with
    | none => (false, st, none)
    | some _ =>
        match env.launch with
        | .error _ => (false, ⟨none⟩, none)
        | .ok pid =>
            if env.settlePollRunning then (true, ⟨some pid⟩, none)
            else (false, ⟨none⟩, some (env.capturedStdout, env.capturedStderr))
  match st.server_process with
  | some _ => if env.entryPollRunning then (true, st, none) else fresh
  | none => fresh

/-!
## Helper lemmas about `pyStrip`
-/

theorem pyStrip_eq_rdropWhile (s : Str) :
    pyStrip s = List.rdropWhile Char.isWhitespace (s.dropWhile Char.isWhitespace) := rfl

theorem dropWhile_pyStrip (s : Str) :
    (pyStrip s).dropWhile Char.isWhitespace = pyStrip s := by
  rcases h : pyStrip s with _ | ⟨c, r⟩
  · rfl
  · have hpre : (c :: r) <+: s.dropWhile Char.isWhitespace := by
      rw [← h, pyStrip_eq_rdropWhile]
      exact List.rdropWhile_prefix _ _
    obtain ⟨t2, ht2⟩ := hpre
    have hidem : (s.dropWhile Char.isWhitespace).dropWhile Char.isWhitespace
        = s.dropWhile Char.isWhitespace := List.dropWhile_idempotent _ s
    rw [← ht2, List.cons_append] at hidem
    have hc : ¬ Char.isWhitespace c := by
      intro hdw
      rw [List.dropWhile_cons_of_pos hdw] at hidem
      have hsub : List.dropWhile Char.isWhitespace (r ++ t2) <:+ (r ++ t2) :=
        List.dropWhile_suffix _
      have hle := hsub.length_le
      rw [hidem] at hle
      simp at hle
    exact List.dropWhile_cons_of_neg hc

theorem pyStrip_idem (s : Str) : pyStrip (pyStrip s) = pyStrip s := by
  rw [pyStrip_eq_rdropWhile (pyStrip s), dropWhile_pyStrip, pyStrip_eq_rdropWhile,
    List.rdropWhile_idempotent]

theorem pyStrip_eq_nil_of_ws {ws : Str} (h : ∀ c ∈ ws, c.isWhitespace) :
    pyStrip ws = [] := by
  have : ws.dropWhile Char.isWhitespace = [] := List.dropWhile_eq_nil_iff.mpr h
  rw [pyStrip_eq_rdropWhile, this, List.rdropWhile_nil]

theorem pyStrip_self_parts {t : Str} (h : pyStrip t = t) :
    t.dropWhile Char.isWhitespace = t ∧ List.rdropWhile Char.isWhitespace t = t := by
  rw [pyStrip_eq_rdropWhile] at h
  have hsuf : t.dropWhile Char.isWhitespace <:+ t := List.dropWhile_suffix _
  have hpre : t <+: t.dropWhile Char.isWhitespace := by
    have hp := List.rdropWhile_prefix Char.isWhitespace (t.dropWhile Char.isWhitespace)
    rwa [h] at hp
  have hlen : (t.dropWhile Char.isWhitespace).length = t.length :=
    le_antisymm hsuf.length_le hpre.length_le
  have hdw : t.dropWhile Char.isWhitespace = t := hsuf.eq_of_length hlen
  exact ⟨hdw, by rwa [hdw] at h⟩

theorem rdropWhile_append_ws {ws : Str} (h : ∀ c ∈ ws, c.isWhitespace) (t : Str) :
    List.rdropWhile Char.isWhitespace (t ++ ws) = List.rdropWhile Char.isWhitespace t := by
  induction ws using List.reverseRecOn with
  | nil => simp
  | append_singleton ws' x ih =>
      rw [← List.append_assoc,
        List.rdropWhile_concat_pos _ _ x (h x (by simp)),
        ih (fun c hc => h c (by simp [hc]))]

theorem pyStrip_append_ws {t ws : Str} (ht : pyStrip t = t)
    (hws : ∀ c ∈ ws, c.isWhitespace) : pyStrip (t ++ ws) = t := by
  rcases t with _ | ⟨c, r⟩
  · simpa using pyStrip_eq_nil_of_ws hws
  · have hparts := pyStrip_self_parts ht
    have hc : ¬ Char.isWhitespace c := by
      intro hdw
      have h1 := hparts.1
      rw [List.dropWhile_cons_of_pos hdw] at h1
      have hsub : List.dropWhile Char.isWhitespace r <:+ r := List.dropWhile_suffix _
      have hle := hsub.length_le
      rw [h1] at hle
      simp at hle
    have hdrop : (c :: (r ++ ws)).dropWhile Char.isWhitespace = c :: (r ++ ws) :=
      List.dropWhile_cons_of_neg hc
    rw [List.cons_append, pyStrip_eq_rdropWhile, hdrop]
    have h2 := rdropWhile_append_ws hws (c :: r)
    rw [List.cons_append] at h2
    rw [h2, hparts.2]

/-!
## Helper lemmas about finalized-line processing
-/

theorem dedupNew_append (sent : List Str) (a b : List Str) :
    dedupNew sent (a ++ b) =
      dedupNew sent a ++ dedupNew (sent ++ dedupNew sent a) b := by
  induction a generalizing sent with
  | nil => simp [dedupNew]
  | cons t ts ih =>
      by_cases h : t ∈ sent
      · simp [dedupNew, h, ih]
      · simp only [List.cons_append, dedupNew, if_neg h, List.append_eq]
        rw [ih (sent ++ [t])]
        simp [List.append_assoc]

theorem mem_dedupNew {x : Str} (sent l : List Str) :
    x ∈ dedupNew sent l ↔ x ∈ l ∧ x ∉ sent := by
  induction l generalizing sent with
  | nil => simp [dedupNew]
  | cons t ts ih =>
      by_cases h : t ∈ sent
      · rw [dedupNew, if_pos h, ih]
        constructor
        · exact fun hx => ⟨List.mem_cons_of_mem _ hx.1, hx.2⟩
        · rintro ⟨hx, hns⟩
          rcases List.mem_cons.mp hx with rfl | hx
          · exact absurd h hns
          · exact ⟨hx, hns⟩
      · rw [dedupNew, if_neg h]
        constructor
        · intro hx
          rcases List.mem_cons.mp hx with rfl | hx
          · exact ⟨List.mem_cons_self _ _, h⟩
          · have := (ih (sent ++ [t])).mp hx
            refine ⟨List.mem_cons_of_mem _ this.1, fun hs => this.2 ?_⟩
            simp [hs]
        · rintro ⟨hx, hns⟩
          rcases List.mem_cons.mp hx with rfl | hx
          · exact List.mem_cons_self _ _
          · by_cases hxt : x = t
            · subst hxt; exact List.mem_cons_self _ _
            · refine List.mem_cons_of_mem _ ((ih (sent ++ [t])).mpr ⟨hx, ?_⟩)
              simp [hns, hxt]

theorem dedupNew_nodup (sent l : List Str) : (dedupNew sent l).Nodup := by
  induction l generalizing sent with
  | nil => simp [dedupNew]
  | cons t ts ih =>
      by_cases h : t ∈ sent
      · rw [dedupNew, if_pos h]; exact ih sent
      · rw [dedupNew, if_neg h]
        refine List.nodup_cons.mpr ⟨fun hmem => ?_, ih (sent ++ [t])⟩
        have := (mem_dedupNew (sent ++ [t]) ts).mp hmem
        exact this.2 (by simp)

theorem processLine_spec (now : Int) (st : ReconState) (e : LineEntry) :
    (processLine now st e).1.sentTexts =
        st.sentTexts ++ dedupNew st.sentTexts (lineTextOf e)
    ∧ (processLine now st e).2 =
        (dedupNew st.sentTexts (lineTextOf e)).map (fun t => (t, true))
    ∧ (processLine now st e).1.lastBufferText = st.lastBufferText
    ∧ (processLine now st e).1.lastBufferContent = st.lastBufferContent := by
  rcases e with t | s | _
  · by_cases h0 : pyStrip t = []
    · simp [processLine, lineTextOf, h0, dedupNew]
    · by_cases h1 : pyStrip t ∈ st.sentTexts
      · simp [processLine, lineTextOf, h0, h1, dedupNew]
      · simp [processLine, lineTextOf, h0, h1, dedupNew]
  · by_cases h0 : pyStrip s = []
    · simp [processLine, lineTextOf, h0, dedupNew]
    · by_cases h1 : pyStrip s ∈ st.sentTexts
      · simp [processLine, lineTextOf, h0, h1, dedupNew]
      · simp [processLine, lineTextOf, h0, h1, dedupNew]
  · simp [processLine, lineTextOf, dedupNew]

theorem processLines_spec (now : Int) (st : ReconState) (ls : List LineEntry) :
    (processLines now st ls).1.sentTexts =
        st.sentTexts ++ dedupNew st.sentTexts (lineTexts ls)
    ∧ (processLines now st ls).2 =
        (dedupNew st.sentTexts (lineTexts ls)).map (fun t => (t, true))
    ∧ (processLines now st ls).1.lastBufferText = st.lastBufferText
    ∧ (processLines now st ls).1.lastBufferContent = st.lastBufferContent := by
  induction ls generalizing st with
  | nil => simp [processLines, lineTexts, dedupNew]
  | cons e rest ih =>
      obtain ⟨hs, he, hb, hc⟩ := processLine_spec now st e
      obtain ⟨hs', he', hb', hc'⟩ := ih (processLine now st e).1
      refine ⟨?_, ?_, ?_, ?_⟩
      · rw [processLines, hs', hs, lineTexts, dedupNew_append, List.append_assoc]
      · rw [processLines]
        simp only
        rw [he', he, hs, lineTexts, dedupNew_append, List.map_append]
      · rw [processLines]; simp only; rw [hb', hb]
      · rw [processLines]; simp only; rw [hc', hc]

/-!
## Helper lemmas about the message handler's shape
-/

theorem silenceCheck_of_not_expired {now : Int} {st : ReconState}
    (h : silenceExpired now st = false) : silenceCheck now st = st := by
  rw [silenceCheck, h]
  rfl

theorem silenceCheck_sentTexts (now : Int) (st : ReconState) :
    (silenceCheck now st).sentTexts = st.sentTexts := by
  rw [silenceCheck]
  split <;> rfl

theorem silenceCheck_buffers_eq (now : Int) (st : ReconState)
    (h : st.lastBufferText = st.lastBufferContent) :
    (silenceCheck now st).lastBufferText = (silenceCheck now st).lastBufferContent := by
  rw [silenceCheck]
  split <;> simp [h]

theorem on_message_buffer_nil {st : ReconState} {now : Int} {m : WsMsg}
    (ht : m.msgType ≠ "ready_to_stop".data)
    (hb : pyStrip m.buffer_transcription = []) :
    on_message st now m = processLines now (silenceCheck now st) m.lines := by
  simp [on_message, ht, hb]

theorem on_message_repeat {st : ReconState} {now : Int} {m : WsMsg}
    (ht : m.msgType ≠ "ready_to_stop".data)
    (hb : pyStrip m.buffer_transcription ≠ [])
    (heq : pyStrip m.buffer_transcription = (silenceCheck now st).lastBufferContent) :
    on_message st now m = (silenceCheck now st, []) := by
  have hb' : (silenceCheck now st).lastBufferContent ≠ [] := heq ▸ hb
  simp [on_message, ht, hb, heq, hb']

theorem on_message_step {st : ReconState} {now : Int} {m : WsMsg}
    (ht : m.msgType ≠ "ready_to_stop".data)
    (hb : pyStrip m.buffer_transcription ≠ [])
    (hne : pyStrip m.buffer_transcription ≠ (silenceCheck now st).lastBufferContent) :
    on_message st now m =
      ((processLines now
          { (partialEmit now (silenceCheck now st) (pyStrip m.buffer_transcription)).1 with
            lastBufferText := pyStrip m.buffer_transcription,
            lastBufferContent := pyStrip m.buffer_transcription } m.lines).1,
        (partialEmit now (silenceCheck now st) (pyStrip m.buffer_transcription)).2 ++
          (processLines now
            { (partialEmit now (silenceCheck now st) (pyStrip m.buffer_transcription)).1 with
              lastBufferText := pyStrip m.buffer_transcription,
              lastBufferContent := pyStrip m.buffer_transcription } m.lines).2) := by
  simp [on_message, ht, hb, hne]

theorem partialEmit_ext {now : Int} {st : ReconState} {b : Str}
    (hpre : st.lastBufferText.isPrefixOf b = true)
    (hlen : st.lastBufferText.length < b.length)
    (hnb : pyStrip (b.drop st.lastBufferText.length) ≠ []) :
    partialEmit now st b =
      ({ st with lastMeaningfulTime := some now },
        [(b.drop st.lastBufferText.length, false)]) := by
  simp [partialEmit, hpre, hlen, hnb]

/-!
## Claims
-/

/-- Claim C1: for every message whose (stripped) `buffer_transcription` is a
strict extension of `lastBufferText` (starts with it and is strictly
longer), the handler emits exactly one partial event whose text is the raw
suffix beyond `lastBufferText`, with `is_final = false`, provided that
suffix is non-empty after trimming; and on the buffer sequence
`["Hello", "Hello world", "Hello world, how"]` from the empty state the
emitted events are exactly `("Hello", false)`, `(" world", false)`,
`(", how", false)` — never the full string on the 2nd or 3rd message. -/
theorem claim_C1_prefix_diff :
    (∀ (st : ReconState) (now : Int) (m : WsMsg),
      m.msgType ≠ "ready_to_stop".data →
      m.lines = [] →
      silenceExpired now st = false →
      st.lastBufferText = st.lastBufferContent →
      st.lastBufferText.isPrefixOf (pyStrip m.buffer_transcription) = true →
      st.lastBufferText.length < (pyStrip m.buffer_transcription).length →
      pyStrip ((pyStrip m.buffer_transcription).drop st.lastBufferText.length) ≠ [] →
      on_message st now m =
        ({ st with lastBufferText := pyStrip m.buffer_transcription,
                   lastBufferContent := pyStrip m.buffer_transcription,
                   lastMeaningfulTime := some now },
          [((pyStrip m.buffer_transcription).drop st.lastBufferText.length, false)]))
    ∧ (runMessages initReconState
        [(0, bufMsg "Hello"), (1000, bufMsg "Hello world"),
          (2000, bufMsg "Hello world, how")]).2 =
        [("Hello".data, false), (" world".data, false), (", how".data, false)] := by
  constructor
  · intro st now m ht hl hsil hbc hpre hlen hnb
    have hst1 : silenceCheck now st = st := silenceCheck_of_not_expired hsil
    have hb : pyStrip m.buffer_transcription ≠ [] := by
      intro h0
      rw [h0] at hlen
      simp at hlen
    have hne : pyStrip m.buffer_transcription ≠ (silenceCheck now st).lastBufferContent := by
      rw [hst1, ← hbc]
      intro h0
      rw [← h0] at hlen
      exact lt_irrefl _ hlen
    rw [on_message_step ht hb hne, hst1, partialEmit_ext hpre hlen hnb, hl]
    simp [processLines]
  · decide

/-- Witness for C1's general part at a concrete input. -/
theorem claim_C1_prefix_diff_witness :
    on_message ⟨[], "Hi".data, "Hi".data, none⟩ 5 (bufMsg "Hi there") =
      (⟨[], "Hi there".data, "Hi there".data, some 5⟩, [(" there".data, false)]) :=
  claim_C1_prefix_diff.1 ⟨[], "Hi".data, "Hi".data, none⟩ 5 (bufMsg "Hi there")
    (by decide) rfl (by decide) rfl (by decide) (by decide) (by decide)

theorem runMessages_lines_only (msgs : List (Int × WsMsg)) (st : ReconState)
    (h : ∀ p ∈ msgs, (p : Int × WsMsg).2.buffer_transcription = []
      ∧ p.2.msgType ≠ "ready_to_stop".data) :
    (runMessages st msgs).2 =
        (dedupNew st.sentTexts (msgsLineTexts msgs)).map (fun t => (t, true))
    ∧ (runMessages st msgs).1.sentTexts =
        st.sentTexts ++ dedupNew st.sentTexts (msgsLineTexts msgs) := by
  induction msgs generalizing st with
  | nil => simp [runMessages, msgsLineTexts, dedupNew]
  | cons p rest ih =>
      obtain ⟨now, m⟩ := p
      obtain ⟨hb, ht⟩ := h (now, m) (List.mem_cons_self _ _)
      have hbs : pyStrip m.buffer_transcription = [] := by rw [hb]; rfl
      have hone : on_message st now m = processLines now (silenceCheck now st) m.lines :=
        on_message_buffer_nil ht hbs
      obtain ⟨hs, he, _, _⟩ := processLines_spec now (silenceCheck now st) m.lines
      rw [silenceCheck_sentTexts] at hs he
      obtain ⟨ihe, ihs⟩ := ih (on_message st now m).1
        (fun q hq => h q (List.mem_cons_of_mem _ hq))
      have hrun : runMessages st ((now, m) :: rest) =
          ((runMessages (on_message st now m).1 rest).1,
            (on_message st now m).2 ++ (runMessages (on_message st now m).1 rest).2) := rfl
      rw [hrun, hone]
      rw [hone] at ihe ihs
      constructor
      · show (processLines now (silenceCheck now st) m.lines).2 ++
            (runMessages (processLines now (silenceCheck now st) m.lines).1 rest).2 = _
        rw [he, ihe, hs, msgsLineTexts, dedupNew_append, List.map_append]
      · show (runMessages (processLines now (silenceCheck now st) m.lines).1 rest).1.sentTexts = _
        rw [ihs, hs, msgsLineTexts, dedupNew_append, List.append_assoc]

/-- Counterexample to claim C2: a finalized line that first (and only)
arrives together with an exactly-repeated `buffer_transcription` is never
emitted — the repeat branch returns from the whole handler before the
`lines` loop runs.  Here `"Done"` is a distinct trimmed non-empty line
text of the sequence, yet the run emits no final event at all. -/
theorem claim_C2_counterexample :
    msgsLineTexts [(0, bufMsg "Hi"),
        (1000, ({ buffer_transcription := "Hi".data,
                  lines := [LineEntry.dictE "Done".data] } : WsMsg))] = ["Done".data]
    ∧ (runMessages initReconState [(0, bufMsg "Hi"),
        (1000, ({ buffer_transcription := "Hi".data,
                  lines := [LineEntry.dictE "Done".data] } : WsMsg))]).2 =
        [("Hi".data, false)]
    ∧ ("Done".data, true) ∉ (runMessages initReconState [(0, bufMsg "Hi"),
        (1000, ({ buffer_transcription := "Hi".data,
                  lines := [LineEntry.dictE "Done".data] } : WsMsg))]).2 := by
  refine ⟨by decide, by decide, by decide⟩

/-- Claim C2 (amended): within one connection lifetime, and for messages
whose partial section does not hit the exact-repeat early return — here,
messages carrying no `buffer_transcription` — the finalized-line texts
(trimmed, non-empty, from bare-string or record entries) are delivered as
exactly the first-occurrence deduplication of their in-order concatenation
against the current `sentFinals`, each with `is_final = true`; that
delivered list is duplicate-free, contains a text iff it occurs in the
sequence and is not already in `sentFinals`, and is appended to
`sentFinals`.  A line co-arriving with an exactly-repeated buffer is not
processed in that invocation. -/
theorem claim_C2_idempotent_finalization :
    ∀ (msgs : List (Int × WsMsg)) (st : ReconState),
      (∀ p ∈ msgs, (p : Int × WsMsg).2.buffer_transcription = []
        ∧ p.2.msgType ≠ "ready_to_stop".data) →
      (runMessages st msgs).2 =
          (dedupNew st.sentTexts (msgsLineTexts msgs)).map (fun t => (t, true))
      ∧ (runMessages st msgs).1.sentTexts =
          st.sentTexts ++ dedupNew st.sentTexts (msgsLineTexts msgs)
      ∧ (dedupNew st.sentTexts (msgsLineTexts msgs)).Nodup
      ∧ (∀ x : Str, x ∈ dedupNew st.sentTexts (msgsLineTexts msgs) ↔
          x ∈ msgsLineTexts msgs ∧ x ∉ st.sentTexts) := by
  intro msgs st h
  obtain ⟨he, hs⟩ := runMessages_lines_only msgs st h
  exact ⟨he, hs, dedupNew_nodup _ _, fun x => mem_dedupNew _ _⟩

/-- Witness for C2's amended theorem at a concrete input: lines
`["A", "B", "A"]` across two messages deliver `A` then `B`, once each. -/
theorem claim_C2_witness :
    (runMessages initReconState
      [(0, ({ lines := [LineEntry.dictE "A".data, LineEntry.strE "B".data] } : WsMsg)),
        (1000, ({ lines := [LineEntry.dictE "A".data] } : WsMsg))]).2 =
      [("A".data, true), ("B".data, true)] := by
  have h := claim_C2_idempotent_finalization
    [(0, ({ lines := [LineEntry.dictE "A".data, LineEntry.strE "B".data] } : WsMsg)),
      (1000, ({ lines := [LineEntry.dictE "A".data] } : WsMsg))]
    initReconState (by decide)
  rw [h.1]
  decide

/-- Counterexample to claim C3: the exact-repeat branch returns from the
whole handler, so the `lines` array of a repeated-buffer message is NOT
processed.  The state `⟨[], "Hello", "Hello", some 0⟩` is reached by
processing buffer `"Hello"` at time 0; the follow-up message repeats the
buffer and carries the new finalized line `"World"`, yet the handler
emits nothing at all and leaves the state untouched. -/
theorem claim_C3_counterexample :
    (runMessages initReconState [(0, bufMsg "Hello")]).1 =
      (⟨[], "Hello".data, "Hello".data, some 0⟩ : ReconState)
    ∧ on_message (⟨[], "Hello".data, "Hello".data, some 0⟩ : ReconState) 1000
        ({ buffer_transcription := "Hello".data,
           lines := [LineEntry.strE "World".data] } : WsMsg) =
        ((⟨[], "Hello".data, "Hello".data, some 0⟩ : ReconState), [])
    ∧ ("World".data, true) ∉
        (on_message (⟨[], "Hello".data, "Hello".data, some 0⟩ : ReconState) 1000
          ({ buffer_transcription := "Hello".data,
             lines := [LineEntry.strE "World".data] } : WsMsg)).2 := by
  refine ⟨by decide, by decide, by decide⟩

/-- Claim C3 (amended): for every message whose stripped
`buffer_transcription` exactly equals `lastBufferContent` (with no silence
reset pending), the handler suppresses the whole message: no event of any
kind is emitted — the `lines` array is not processed in that invocation —
and the state, `lastMeaningfulTime` included, is unchanged. -/
theorem claim_C3_repeat_suppression :
    ∀ (st : ReconState) (now : Int) (m : WsMsg),
      m.msgType ≠ "ready_to_stop".data →
      silenceExpired now st = false →
      pyStrip m.buffer_transcription ≠ [] →
      pyStrip m.buffer_transcription = st.lastBufferContent →
      on_message st now m = (st, []) := by
  intro st now m ht hsil hb heq
  have hst1 : silenceCheck now st = st := silenceCheck_of_not_expired hsil
  have heq' : pyStrip m.buffer_transcription = (silenceCheck now st).lastBufferContent := by
    rw [hst1]; exact heq
  rw [on_message_repeat ht hb heq', hst1]

/-- Witness for C3's amended theorem at a concrete input. -/
theorem claim_C3_repeat_suppression_witness :
    on_message (⟨[], "Hey".data, "Hey".data, some 0⟩ : ReconState) 500
      ({ buffer_transcription := "Hey".data,
         lines := [LineEntry.dictE "Line".data] } : WsMsg) =
      ((⟨[], "Hey".data, "Hey".data, some 0⟩ : ReconState), []) :=
  claim_C3_repeat_suppression _ 500 _ (by decide) (by decide) (by decide) rfl

/-- Counterexample to claim C4: the handler strips `buffer_transcription`
on entry (`data.get("buffer_transcription", "").strip()`), so after the
partial-handling step `lastBufferText`/`lastBufferContent` hold the
trimmed value, not the raw value exactly as received: receiving
`" Hello"` from the empty state leaves them at `"Hello"`. -/
theorem claim_C4_counterexample :
    (on_message initReconState 0 (bufMsg " Hello")).1.lastBufferText ≠
        (bufMsg " Hello").buffer_transcription
    ∧ (on_message initReconState 0 (bufMsg " Hello")).1.lastBufferContent ≠
        (bufMsg " Hello").buffer_transcription
    ∧ (on_message initReconState 0 (bufMsg " Hello")).1.lastBufferText = "Hello".data := by
  refine ⟨by decide, by decide, by decide⟩

/-- Claim C4 (amended): for every message whose `buffer_transcription` is
non-empty after trimming, after the handler runs (whichever of the three
sub-cases fired, and whatever the `lines` array holds), `lastBufferText`
and `lastBufferContent` both equal the TRIMMED `buffer_transcription`;
the repeat sub-case returns early without the assignment, but there the
two fields already hold that trimmed value. -/
theorem claim_C4_buffers_track_trimmed :
    ∀ (st : ReconState) (now : Int) (m : WsMsg),
      m.msgType ≠ "ready_to_stop".data →
      st.lastBufferText = st.lastBufferContent →
      pyStrip m.buffer_transcription ≠ [] →
      (on_message st now m).1.lastBufferText = pyStrip m.buffer_transcription
      ∧ (on_message st now m).1.lastBufferContent = pyStrip m.buffer_transcription := by
  intro st now m ht hst hb
  have h1 := silenceCheck_buffers_eq now st hst
  by_cases heq : pyStrip m.buffer_transcription = (silenceCheck now st).lastBufferContent
  · rw [on_message_repeat ht hb heq]
    exact ⟨h1.trans heq.symm, heq.symm⟩
  · rw [on_message_step ht hb heq]
    obtain ⟨_, _, hbt, hbc⟩ := processLines_spec now
      { (partialEmit now (silenceCheck now st) (pyStrip m.buffer_transcription)).1 with
        lastBufferText := pyStrip m.buffer_transcription,
        lastBufferContent := pyStrip m.buffer_transcription } m.lines
    exact ⟨hbt, hbc⟩

/-- Witness for C4's amended theorem at a concrete input. -/
theorem claim_C4_buffers_track_trimmed_witness :
    (on_message (⟨[], "a".data, "a".data, none⟩ : ReconState) 0
        (bufMsg " a b ")).1.lastBufferText = "a b".data
    ∧ (on_message (⟨[], "a".data, "a".data, none⟩ : ReconState) 0
        (bufMsg " a b ")).1.lastBufferContent = "a b".data := by
  have h := claim_C4_buffers_track_trimmed ⟨[], "a".data, "a".data, none⟩ 0
    (bufMsg " a b ") (by decide) rfl (by decide)
  refine ⟨h.1.trans (by decide), h.2.trans (by decide)⟩

/-- Claim C5: when a last meaningful time is set and more than the 3.0 s
silence timeout has passed, the handler clears `lastBufferText`,
`lastBufferContent` and `lastMeaningfulTime` before partial handling, so
the incoming non-blank buffer is treated as fresh: the whole (trimmed)
buffer is emitted as a single `(text, is_final = false)` event, whatever
the pre-silence buffer state was. -/
theorem claim_C5_silence_reset :
    ∀ (st : ReconState) (now tPrev : Int) (m : WsMsg),
      m.msgType ≠ "ready_to_stop".data →
      m.lines = [] →
      st.lastMeaningfulTime = some tPrev →
      now - tPrev > silenceTimeoutMs →
      pyStrip m.buffer_transcription ≠ [] →
      on_message st now m =
        ({ st with lastBufferText := pyStrip m.buffer_transcription,
                   lastBufferContent := pyStrip m.buffer_transcription,
                   lastMeaningfulTime := some now },
          [(pyStrip m.buffer_transcription, false)]) := by
  intro st now tPrev m ht hl htime hgap hb
  have hexp : silenceExpired now st = true := by
    rw [silenceExpired, htime]
    simpa using hgap
  have hclear : silenceCheck now st =
      { st with lastBufferText := [], lastBufferContent := [],
                lastMeaningfulTime := none } := by
    rw [silenceCheck, hexp]
    rfl
  have hne : pyStrip m.buffer_transcription ≠ (silenceCheck now st).lastBufferContent := by
    rw [hclear]
    exact hb
  have hemit : partialEmit now (silenceCheck now st) (pyStrip m.buffer_transcription) =
      ({ silenceCheck now st with lastMeaningfulTime := some now },
        [(pyStrip m.buffer_transcription, false)]) := by
    have hpre : (silenceCheck now st).lastBufferText.isPrefixOf
        (pyStrip m.buffer_transcription) = true := by
      rw [hclear]
      simp
    have hlen : (silenceCheck now st).lastBufferText.length <
        (pyStrip m.buffer_transcription).length := by
      rw [hclear]
      simpa [List.length_pos] using hb
    have hnb : pyStrip ((pyStrip m.buffer_transcription).drop
        (silenceCheck now st).lastBufferText.length) ≠ [] := by
      rw [hclear]
      simpa [pyStrip_idem] using hb
    have h : partialEmit now (silenceCheck now st) (pyStrip m.buffer_transcription) =
        ({ silenceCheck now st with lastMeaningfulTime := some now },
          [((pyStrip m.buffer_transcription).drop
              (silenceCheck now st).lastBufferText.length, false)]) :=
      partialEmit_ext hpre hlen hnb
    rw [h, hclear]
    simp
  rw [on_message_step ht hb hne, hemit, hl, hclear]
  simp [processLines]

/-- Witness for C5 at a concrete input: 4 s of silence, then a buffer that
diverges from the stale state is emitted whole. -/
theorem claim_C5_silence_reset_witness :
    on_message (⟨[], "Hello world".data, "Hello world".data, some 0⟩ : ReconState)
      4000 (bufMsg "Hi") =
      ((⟨[], "Hi".data, "Hi".data, some 4000⟩ : ReconState), [("Hi".data, false)]) :=
  claim_C5_silence_reset ⟨[], "Hello world".data, "Hello world".data, some 0⟩
    4000 0 (bufMsg "Hi") (by decide) rfl rfl (by decide) (by decide)

/-- Claim C6: `connect_websocket` returns `false` with zero transport
operations when no transcription callback is registered; otherwise it
makes at most `max_retries = 3` attempts — creating the WebSocketApp and
its thread, waiting up to the 2 s open-timeout at 50 ms poll granularity,
re-creating after a fixed 0.5 s backoff — returning `true` exactly when
one of the 3 attempts observes the Connected flag, and `false` (after the
full 3-attempt trace) when none does. -/
theorem claim_C6_connect_retry :
    (∀ opened : Nat → Bool, connect_websocket false opened = (false, []))
    ∧ (∀ opened : Nat → Bool,
        ((connect_websocket true opened).1 = true ↔ ∃ i < maxRetries, opened i = true))
    ∧ (∀ opened : Nat → Bool, (∀ i < maxRetries, opened i = false) →
        connect_websocket true opened =
          (false, [.createApp, .startThread,
            .waitOpen openTimeoutMs pollIntervalMs,
            .backoff retryDelayMs, .createApp, .startThread,
            .waitOpen openTimeoutMs pollIntervalMs,
            .backoff retryDelayMs, .createApp, .startThread,
            .waitOpen openTimeoutMs pollIntervalMs]))
    ∧ maxRetries = 3 ∧ retryDelayMs = 500 ∧ openTimeoutMs = 2000
    ∧ pollIntervalMs = 50 := by
  refine ⟨fun opened => rfl, fun opened => ?_, fun opened h => ?_, rfl, rfl, rfl, rfl⟩
  · have hor : (connect_websocket true opened).1 =
        (opened 0 || opened 1 || opened 2) := by
      rcases h0 : opened 0 <;> rcases h1 : opened 1 <;> rcases h2 : opened 2 <;>
        simp [connect_websocket, connectAttempts, maxRetries, h0, h1, h2]
    rw [hor]
    constructor
    · intro h
      rcases Bool.or_eq_true_iff.mp h with h' | h2
      · rcases Bool.or_eq_true_iff.mp h' with h0 | h1
        · exact ⟨0, by rw [maxRetries]; omega, h0⟩
        · exact ⟨1, by rw [maxRetries]; omega, h1⟩
      · exact ⟨2, by rw [maxRetries]; omega, h2⟩
    · rintro ⟨i, hi, hop⟩
      rw [maxRetries] at hi
      interval_cases i <;> simp [hop]
  · have h0 := h 0 (by rw [maxRetries]; omega)
    have h1 := h 1 (by rw [maxRetries]; omega)
    have h2 := h 2 (by rw [maxRetries]; omega)
    simp [connect_websocket, connectAttempts, maxRetries, h0, h1, h2]

/-- Witness for C6: with no attempt ever observing the Connected flag,
the call returns `false` after the full 3-attempt trace. -/
theorem claim_C6_connect_retry_witness :
    connect_websocket true (fun _ => false) =
      (false, [.createApp, .startThread,
        .waitOpen openTimeoutMs pollIntervalMs,
        .backoff retryDelayMs, .createApp, .startThread,
        .waitOpen openTimeoutMs pollIntervalMs,
        .backoff retryDelayMs, .createApp, .startThread,
        .waitOpen openTimeoutMs pollIntervalMs]) :=
  claim_C6_connect_retry.2.2.1 (fun _ => false) (fun _ _ => rfl)

/-- Claim C7: after `disconnect_websocket` — whether or not a client
handle existed — the handle is cleared, `is_connected` is `false` (the
hypothesis records the class invariant that a missing handle means the
flag is already down, as the `finally` block only runs when a handle
exists), and the reconciliation state is fully reset: empty `_sent_texts`,
empty buffer strings, no meaningful-time. -/
theorem claim_C7_disconnect_resets :
    ∀ st : ServiceState,
      (st.websocket_client = none → st.is_connected = false) →
      (disconnect_websocket st).websocket_client = none
      ∧ (disconnect_websocket st).is_connected = false
      ∧ (disconnect_websocket st).recon = initReconState := by
  intro st h
  rcases hc : st.websocket_client with _ | w
  · exact ⟨by simp [disconnect_websocket, hc], by simp [disconnect_websocket, hc, h hc], rfl⟩
  · exact ⟨by simp [disconnect_websocket, hc], by simp [disconnect_websocket, hc], rfl⟩

/-- Witness for C7 at a concrete connected state with populated
reconciliation tracking. -/
theorem claim_C7_disconnect_resets_witness :
    (disconnect_websocket ⟨some 1, true, ⟨["x".data], "y".data, "z".data, some 7⟩⟩).websocket_client = none
    ∧ (disconnect_websocket ⟨some 1, true, ⟨["x".data], "y".data, "z".data, some 7⟩⟩).is_connected = false
    ∧ (disconnect_websocket ⟨some 1, true, ⟨["x".data], "y".data, "z".data, some 7⟩⟩).recon = initReconState :=
  claim_C7_disconnect_resets ⟨some 1, true, ⟨["x".data], "y".data, "z".data, some 7⟩⟩
    (by decide)

/-- Counterexample to claim C8: when no executable is found, `start_server`
returns `False` WITHOUT clearing the process handle (lines 84-87 just
return) — a stale dead handle survives.  Here the state holds a handle
whose liveness probe reports exited, and the search finds nothing. -/
theorem claim_C8_counterexample :
    start_server ⟨false, false, none, none, .ok 0, true, "", ""⟩ ⟨some 7⟩ =
      (false, ⟨some 7⟩, none)
    ∧ ((⟨some 7⟩ : SupState).server_process ≠ none) := by
  exact ⟨rfl, by decide⟩

/-- Claim C8 (amended): `start_server` always returns a boolean (the
source's `except Exception` converts even a raised launch into `False`):
it is a no-op `True` when a handle exists and the liveness probe reports
running; when no executable is found it returns `False` leaving the
handle as it was (none in the common case of no prior process, but a
stale handle is NOT cleared); when the launch raises it returns `False`
with the handle cleared; and when the launched process has already exited
after the 1.5 s settle interval it returns `False` with the handle
cleared and the captured stdout/stderr as diagnostics. -/
theorem claim_C8_start_server :
    (∀ (env : StartEnv) (st : SupState) (p : Nat),
      st.server_process = some p → env.entryPollRunning = true →
      start_server env st = (true, st, none))
    ∧ (∀ (env : StartEnv) (st : SupState),
      (st.server_process = none ∨ env.entryPollRunning = false) →
      findExecutable env = none →
      start_server env st = (false, st, none))
    ∧ (∀ (env : StartEnv) (st : SupState) (exe err : String),
      (st.server_process = none ∨ env.entryPollRunning = false) →
      findExecutable env = some exe → env.launch = .error err →
      start_server env st = (false, ⟨none⟩, none))
    ∧ (∀ (env : StartEnv) (st : SupState) (exe : String) (pid : Nat),
      (st.server_process = none ∨ env.entryPollRunning = false) →
      findExecutable env = some exe → env.launch = .ok pid →
      env.settlePollRunning = false →
      start_server env st =
        (false, ⟨none⟩, some (env.capturedStdout, env.capturedStderr)))
    ∧ (∀ (env : StartEnv) (st : SupState) (exe : String) (pid : Nat),
      (st.server_process = none ∨ env.entryPollRunning = false) →
      findExecutable env = some exe → env.launch = .ok pid →
      env.settlePollRunning = true →
      start_server env st = (true, ⟨some pid⟩, none)) := by
  refine ⟨?_, ?_, ?_, ?_, ?_⟩
  · intro env st p hp hrun
    simp [start_server, hp, hrun]
  · intro env st hfresh hexe
    rcases hfresh with hp | hrun
    · simp [start_server, hp, hexe]
    · rcases hp : st.server_process with _ | q <;> simp [start_server, hp, hrun, hexe]
  · intro env st exe err hfresh hexe hlaunch
    rcases hfresh with hp | hrun
    · simp [start_server, hp, hexe, hlaunch]
    · rcases hp : st.server_process with _ | q <;>
        simp [start_server, hp, hrun, hexe, hlaunch]
  · intro env st exe pid hfresh hexe hlaunch hsettle
    rcases hfresh with hp | hrun
    · simp [start_server, hp, hexe, hlaunch, hsettle]
    · rcases hp : st.server_process with _ | q <;>
        simp [start_server, hp, hrun, hexe, hlaunch, hsettle]
  · intro env st exe pid hfresh hexe hlaunch hsettle
    rcases hfresh with hp | hrun
    · simp [start_server, hp, hexe, hlaunch, hsettle]
    · rcases hp : st.server_process with _ | q <;>
        simp [start_server, hp, hrun, hexe, hlaunch, hsettle]

/-- Witness for C8's amended theorem: a process that dies during the
settle interval yields `False`, a cleared handle, and the diagnostics. -/
theorem claim_C8_start_server_witness :
    start_server ⟨false, false, none, some "wlk", .ok 42, false, "out", "err"⟩ ⟨none⟩ =
      (false, ⟨none⟩, some ("out", "err")) :=
  claim_C8_start_server.2.2.2.1 ⟨false, false, none, some "wlk", .ok 42, false, "out", "err"⟩
    ⟨none⟩ "wlk" 42 (Or.inl rfl) rfl rfl rfl

/-- Claim C9: `_last_buffer_text = _last_buffer_content` is an invariant —
it holds initially, every message step preserves it (both fields are
cleared together by the silence check, assigned together after the
partial section, and untouched by the repeat return and the `lines`
loop), and `disconnect_websocket` preserves it (both reset to `""`).
Consequently the exact-repeat check against `lastBufferContent` is
equivalent to an equality check against `lastBufferText`, and the
divergence branch's guard holds whenever that branch is reached. -/
theorem claim_C9_buffers_invariant :
    initReconState.lastBufferText = initReconState.lastBufferContent
    ∧ (∀ (st : ReconState) (now : Int) (m : WsMsg),
        st.lastBufferText = st.lastBufferContent →
        (on_message st now m).1.lastBufferText = (on_message st now m).1.lastBufferContent)
    ∧ (∀ st : ServiceState,
        (disconnect_websocket st).recon.lastBufferText =
          (disconnect_websocket st).recon.lastBufferContent)
    ∧ (∀ (st : ReconState) (b : Str), st.lastBufferText = st.lastBufferContent →
        (b = st.lastBufferContent ↔ b = st.lastBufferText))
    ∧ (∀ (st : ReconState) (b : Str), st.lastBufferText = st.lastBufferContent →
        b ≠ st.lastBufferContent →
        ¬(st.lastBufferText.isPrefixOf b = true ∧ st.lastBufferText.length < b.length) →
        b ≠ st.lastBufferText) := by
  refine ⟨rfl, ?_, ?_, ?_, ?_⟩
  · intro st now m h
    by_cases ht : m.msgType = "ready_to_stop".data
    · simp only [on_message, ht, if_pos]
      exact h
    · have h1 := silenceCheck_buffers_eq now st h
      by_cases hb : pyStrip m.buffer_transcription = []
      · rw [on_message_buffer_nil ht hb]
        obtain ⟨_, _, hbt, hbc⟩ := processLines_spec now (silenceCheck now st) m.lines
        rw [hbt, hbc]
        exact h1
      · by_cases heq : pyStrip m.buffer_transcription = (silenceCheck now st).lastBufferContent
        · rw [on_message_repeat ht hb heq]
          exact h1
        · rw [on_message_step ht hb heq]
          obtain ⟨_, _, hbt, hbc⟩ := processLines_spec now
            { (partialEmit now (silenceCheck now st) (pyStrip m.buffer_transcription)).1 with
              lastBufferText := pyStrip m.buffer_transcription,
              lastBufferContent := pyStrip m.buffer_transcription } m.lines
          rw [hbt, hbc]
  · intro st
    rfl
  · intro st b h
    rw [h]
  · intro st b h hne _
    rw [← h] at hne
    exact hne

/-- Witness for C9's preservation parts at a concrete input. -/
theorem claim_C9_buffers_invariant_witness :
    (on_message (⟨[], "a".data, "a".data, none⟩ : ReconState) 0
        (bufMsg "ab")).1.lastBufferText =
      (on_message (⟨[], "a".data, "a".data, none⟩ : ReconState) 0
        (bufMsg "ab")).1.lastBufferContent :=
  claim_C9_buffers_invariant.2.1 ⟨[], "a".data, "a".data, none⟩ 0 (bufMsg "ab") rfl

/-- Counterexample to claim C10: a `buffer_transcription` that strictly
extends `lastBufferText` by a whitespace-only suffix (`"Hello "` after
`"Hello"`) does NOT advance `lastBufferText`/`lastBufferContent` to the
new buffer value — the handler strips the buffer on entry, sees an exact
repeat of `lastBufferContent`, and returns with the state untouched (it
stays `"Hello"`, and `lastMeaningfulTime` stays at the first message's
time).  The suffix is dropped, but not through the suffix-trim check. -/
theorem claim_C10_counterexample :
    "Hello".data.isPrefixOf "Hello ".data = true
    ∧ "Hello".data.length < "Hello ".data.length
    ∧ pyStrip ("Hello ".data.drop "Hello".data.length) = []
    ∧ (runMessages initReconState [(0, bufMsg "Hello"), (1000, bufMsg "Hello ")]).1 =
        (⟨[], "Hello".data, "Hello".data, some 0⟩ : ReconState)
    ∧ (runMessages initReconState
        [(0, bufMsg "Hello"), (1000, bufMsg "Hello ")]).1.lastBufferText ≠
        "Hello ".data
    ∧ (runMessages initReconState [(0, bufMsg "Hello"), (1000, bufMsg "Hello ")]).2 =
        [("Hello".data, false)] := by
  refine ⟨by decide, by decide, by decide, by decide, by decide, by decide⟩

/-- Claim C10 (amended): a message whose raw `buffer_transcription` is
`lastBufferText` plus a non-empty whitespace-only suffix (the state being
trimmed, as every reachable state is) is handled as an exact repeat: its
trimmed value equals `lastBufferContent`, so no event is emitted,
`lastMeaningfulTime` is not updated, and `lastBufferText` and
`lastBufferContent` REMAIN at the previous trimmed value (which equals
the trimmed new buffer) rather than advancing to the raw value; the
whitespace suffix is silently dropped. -/
theorem claim_C10_ws_suffix_dropped :
    ∀ (st : ReconState) (now : Int) (m : WsMsg) (ws : Str),
      m.msgType ≠ "ready_to_stop".data →
      m.lines = [] →
      silenceExpired now st = false →
      st.lastBufferText = st.lastBufferContent →
      pyStrip st.lastBufferText = st.lastBufferText →
      m.buffer_transcription = st.lastBufferText ++ ws →
      ws ≠ [] →
      (∀ c ∈ ws, c.isWhitespace) →
      on_message st now m = (st, [])
      ∧ pyStrip m.buffer_transcription = st.lastBufferText := by
  intro st now m ws ht hl hsil hstc htr hbuf hwne hws
  have hps : pyStrip m.buffer_transcription = st.lastBufferText := by
    rw [hbuf]
    exact pyStrip_append_ws htr hws
  refine ⟨?_, hps⟩
  by_cases hT : st.lastBufferText = []
  · have hb0 : pyStrip m.buffer_transcription = [] := by rw [hps, hT]
    rw [on_message_buffer_nil ht hb0, hl, silenceCheck_of_not_expired hsil]
    rfl
  · have hb : pyStrip m.buffer_transcription ≠ [] := by
      rw [hps]
      exact hT
    have heq : pyStrip m.buffer_transcription = (silenceCheck now st).lastBufferContent := by
      rw [silenceCheck_of_not_expired hsil, ← hstc]
      exact hps
    rw [on_message_repeat ht hb heq, silenceCheck_of_not_expired hsil]

/-- Witness for C10's amended theorem at a concrete input. -/
theorem claim_C10_ws_suffix_dropped_witness :
    on_message (⟨[], "Hi".data, "Hi".data, some 0⟩ : ReconState) 1000 (bufMsg "Hi ") =
      ((⟨[], "Hi".data, "Hi".data, some 0⟩ : ReconState), [])
    ∧ pyStrip (bufMsg "Hi ").buffer_transcription = "Hi".data :=
  claim_C10_ws_suffix_dropped ⟨[], "Hi".data, "Hi".data, some 0⟩ 1000 (bufMsg "Hi ")
    [' '] (by decide) rfl (by decide) rfl (by decide) (by decide) (by decide) (by decide)
